import Mathlib

/-!
# Verification of the audio-backup-cron orchestration engine

Shallow embedding, in Lean 4, of the backup orchestration engine of the
`audio-backup-cron` repository and proofs of the behavioural claims taken
from its specification.

The embedding covers, faithfully to the TypeScript source:

* the cron-like schedule evaluator (`scheduler.ts`: `shouldRunBackup`,
  `matchCronField`),
* the breadth-first tree enumerator (`supabase.ts`: `listAllFiles`),
* the per-object transfer strategist (`backup.ts`: `backupFile`), and
* the batch orchestrator / run supervisor (`backup.ts`: `backup`),

with the two storage services and the filesystem represented as
deterministic capability environments (the injected clients of the
source), so that every embedded function is executable.
-/

namespace AudioBackup

/-! ## JavaScript primitives used by the source -/

/-- Decimal digit value of a character, `none` when not a digit. -/
def decDigit (c : Char) : Option Nat :=
  if c.isDigit then some (c.toNat - 48) else none

/-- Hexadecimal digit value of a character, `none` when not a hex digit. -/
def hexDigit (c : Char) : Option Nat :=
  if c.isDigit then some (c.toNat - 48)
  else if 'a' ≤ c ∧ c ≤ 'f' then some (c.toNat - 87)
  else if 'A' ≤ c ∧ c ≤ 'F' then some (c.toNat - 55)
  else none

/-- Value of the longest digit run at the front of `cs`, in the given base;
`none` when no leading digit exists (JavaScript `NaN`). -/
def takeDigits (dig : Char → Option Nat) (base : Nat) (cs : List Char) : Option Nat :=
  let ds := cs.takeWhile (fun c => (dig c).isSome)
  if ds.isEmpty then none
  else some (ds.foldl (fun acc c => acc * base + ((dig c).getD 0)) 0)

/-- JavaScript `parseInt(s)` (radix argument omitted): skip leading
whitespace, optional sign, optional `0x`/`0X` hexadecimal prefix, then the
longest digit run; `NaN` is modelled as `none`. -/
def parseIntJS (s : String) : Option Int :=
  let cs := s.data.dropWhile Char.isWhitespace
  let signed : Int × List Char :=
    match cs with
    | '-' :: rest => (-1, rest)
    | '+' :: rest => (1, rest)
    | _ => (1, cs)
  match signed.2 with
  | '0' :: 'x' :: rest => (takeDigits hexDigit 16 rest).map (fun n => signed.1 * n)
  | '0' :: 'X' :: rest => (takeDigits hexDigit 16 rest).map (fun n => signed.1 * n)
  | _ => (takeDigits decDigit 10 signed.2).map (fun n => signed.1 * n)

/-- JavaScript `s.includes(sub)`: substring containment. -/
def jsIncludes (s sub : String) : Bool :=
  decide (sub.data <:+: s.data)

/-- JavaScript `s.includes(c)` for a single-character needle. -/
def jsHasChar (s : String) (c : Char) : Bool :=
  s.data.contains c

/-- JavaScript `s.split(sep)` for a single-character separator, on the
character list: splitting `""` gives `[""]`, adjacent separators give
empty fields, exactly as `String.prototype.split`. -/
def jsSplitChar (sep : Char) : List Char → List (List Char)
  | [] => [[]]
  | c :: rest =>
    let r := jsSplitChar sep rest
    if c = sep then [] :: r
    else (c :: r.headD []) :: r.tail

/-- JavaScript `s.split(sep)` for a single-character separator. -/
def jsSplit (s : String) (sep : Char) : List String :=
  (jsSplitChar sep s.data).map (fun cs => String.mk cs)

/-! ## Schedule evaluator (`scheduler.ts`) -/

/-- The calendar components the scheduler reads off `new Date()`:
`getMinutes()`, `getHours()`, `getDate()`, `getMonth() + 1`, `getDay()`. -/
structure DateTime where
  minute : Int
  hour : Int
  day : Int
  month : Int
  dayOfWeek : Int
  deriving DecidableEq

/-- The wildcard-numerator step test of `matchCronField`: for a field that
contains `/`, parse the part after the first `/` and test
`currentValue % stepValue === 0` (JavaScript `%` on integers is truncated
remainder, `Int.tmod`; a `NaN` or zero step makes the test false). -/
def stepCheck (cronField : String) (currentValue : Int) : Bool :=
  match parseIntJS ((jsSplit cronField '/').getD 1 "") with
  | some b => if b = 0 then false else Int.tmod currentValue b == 0
  | none => false

/-- The non-wildcard, non-step tail of `matchCronField`, in source order:
range `a-b` (inclusive, false when either bound is `NaN`), comma list
(membership), otherwise single-value equality against `parseInt`. -/
def matchCronFieldTail (cronField : String) (currentValue : Int) : Bool :=
  if jsHasChar cronField '-' then
    match parseIntJS ((jsSplit cronField '-').getD 0 ""),
          parseIntJS ((jsSplit cronField '-').getD 1 "") with
    | some a, some b => decide (a ≤ currentValue) && decide (currentValue ≤ b)
    | _, _ => false
  else if jsHasChar cronField ',' then
    ((jsSplit cronField ',').map parseIntJS).contains (some currentValue)
  else
    parseIntJS cronField == some currentValue

/-- `matchCronField` of `scheduler.ts`. The `lo`/`hi` parameters mirror the
source's `min`/`max` arguments, which the source never reads. The step
branch returns only when the part before `/` is the literal `*`; any other
field containing `/` falls through to the later rules, exactly as the
source's early-return structure does. -/
def matchCronField (cronField : String) (currentValue : Int) (lo hi : Int) : Bool :=
  if cronField = "*" then true
  else if jsHasChar cronField '/' && ((jsSplit cronField '/').getD 0 "" == "*") then
    stepCheck cronField currentValue
  else
    matchCronFieldTail cronField currentValue

/-- `shouldRunBackup` of `scheduler.ts`: split the schedule on the space
character (JavaScript `split(" ")`), report and return `false` unless
exactly 5 parts result, and otherwise require all five field matches. -/
def shouldRunBackup (cronSchedule : String) (now : DateTime) : Bool :=
  let parts := jsSplit cronSchedule ' '
  if parts.length ≠ 5 then false
  else
    matchCronField (parts.getD 0 "") now.minute 0 59 &&
    matchCronField (parts.getD 1 "") now.hour 0 23 &&
    matchCronField (parts.getD 2 "") now.day 1 31 &&
    matchCronField (parts.getD 3 "") now.month 1 12 &&
    matchCronField (parts.getD 4 "") now.dayOfWeek 0 6

/-! ## Tree enumerator (`supabase.ts`) -/

/-- One entry returned by the storage `list(path)` call. `metadata` is the
opaque key/value object the service attaches (only numeric values are ever
inspected by the source, via `metadata.size`); `none` models an absent
(`null`/`undefined`) metadata object. -/
structure ListedItem where
  name : String
  id : String
  created_at : Option String
  updated_at : Option String
  metadata : Option (List (String × Nat))
  deriving DecidableEq

/-- First value bound to `key` in a metadata object (JavaScript property
lookup on the modelled object). -/
def lookupMeta (kvs : List (String × Nat)) (key : String) : Option Nat :=
  (kvs.find? (fun p => p.1 == key)).map (fun p => p.2)

/-- The folder classification of `listAllFiles`:
`!item.metadata || Object.keys(item.metadata).length === 0 || !item.metadata.size`.
Absent metadata, an empty metadata object, and a missing or falsy (zero)
`size` property all classify the entry as a folder. -/
def isFolderItem (md : Option (List (String × Nat))) : Bool :=
  match md with
  | none => true
  | some kvs => kvs.isEmpty || (lookupMeta kvs "size").getD 0 == 0

/-- Full path of a listed entry:
`currentPath ? currentPath + "/" + item.name : item.name`. -/
def joinPath (currentPath name : String) : String :=
  if currentPath = "" then name else currentPath ++ "/" ++ name

/-- The leaf-file record built by `listAllFiles` (interface `StorageFile`
of `supabase.ts`). -/
structure StorageFile where
  name : String
  id : String
  path : String
  isFolder : Bool
  created_at : String
  updated_at : String
  size : Nat
  metadata : Option (List (String × Nat))
  deriving DecidableEq

/-- The per-listing loop body of `listAllFiles`: classify every entry of
one listing, returning the folder paths to enqueue (in listing order) and
the `StorageFile` records to append (in listing order). -/
def processItems (currentPath : String) : List ListedItem → List String × List StorageFile
  | [] => ([], [])
  | item :: rest =>
    let fullPath := joinPath currentPath item.name
    let tail := processItems currentPath rest
    if isFolderItem item.metadata then
      (fullPath :: tail.1, tail.2)
    else
      (tail.1,
       { name := item.name
         id := item.id
         path := fullPath
         isFolder := false
         created_at := item.created_at.getD ""
         updated_at := item.updated_at.getD ""
         size := ((item.metadata.bind (fun kvs => lookupMeta kvs "size")).getD 0)
         metadata := item.metadata } :: tail.2)

/-- The breadth-first work loop of `listAllFiles`. `listing p` is the
storage `list(p)` call: `none` models a listing error (reported and
skipped, the subtree abandoned); folders found are pushed at the back of
the queue, files appended to the accumulated result. `fuel` bounds the
number of loop iterations (the source loop runs until the queue empties;
every theorem below either fixes a concrete fuel or holds for all fuels). -/
def listAllFilesGo (listing : String → Option (List ListedItem)) :
    Nat → List String → List String → List StorageFile → List StorageFile
  | 0, _, _, acc => acc
  | _ + 1, [], _, acc => acc
  | fuel + 1, currentPath :: rest, processed, acc =>
    if processed.contains currentPath then
      listAllFilesGo listing fuel rest processed acc
    else
      match listing currentPath with
      | none => listAllFilesGo listing fuel rest (currentPath :: processed) acc
      | some data =>
        let step := processItems currentPath data
        listAllFilesGo listing fuel (rest ++ step.1) (currentPath :: processed) (acc ++ step.2)

/-- `listAllFiles` of `supabase.ts`: start from the root path `""` with an
empty visited set and empty result. -/
def listAllFiles (listing : String → Option (List ListedItem)) (fuel : Nat) : List StorageFile :=
  listAllFilesGo listing fuel [""] [] []

/-! ## Transfer strategist (`backup.ts`: `backupFile`) and its collaborators -/

/-- Static run parameters (`config.ts`: `BackupConfig`), restricted to the
fields the orchestration engine reads. `prefixS3` models `config.s3.prefix`
(`""` standing for an unset prefix, matching the JavaScript truthiness test
in `generateS3Key`); `fileExtensions` is carried because the configuration
declares it, even though no engine code reads it. -/
structure BackupConfig where
  batchSize : Nat
  tempDir : String
  cronSchedule : String
  fileExtensions : List String
  prefixS3 : String
  deriving DecidableEq

/-- `generateS3Key` of `s3.ts`: `prefix ? prefix + "/" + filePath : filePath`. -/
def generateS3Key (pre filePath : String) : String :=
  if pre = "" then filePath else pre ++ "/" ++ filePath

/-- Deterministic capability environment standing for the two storage
clients and the filesystem, as seen by one run: the set of keys present at
the destination, and the outcome of each fallible effect (an `Except`
error models a thrown/rejected call, its payload the error message). -/
structure TransferEnv where
  destKeys : List String
  download : String → Except String Unit
  uploadBuffer : String → Except String Unit
  writeTemp : String → Except String Unit
  uploadStream : String → Except String Unit
  mkdirResult : Except String Unit
  rmDirResult : Except String Unit

/-- `fileExists` of `s3.ts`: a `ListObjectsV2` probe with `Prefix` set to
the generated key, true when any destination key extends the generated key
(S3 prefix listing; in particular true when the exact key is present). -/
def fileExists (env : TransferEnv) (cfg : BackupConfig) (filePath : String) : Bool :=
  env.destKeys.any (fun k => (generateS3Key cfg.prefixS3 filePath).data.isPrefixOf k.data)

/-- The buffered-strategy guard of `backupFile`:
`file.size && file.size < 100 * 1024 * 1024` — a falsy (zero) size skips
the buffered attempt. -/
def triesBuffered (size : Nat) : Bool :=
  size != 0 && size < 100 * 1024 * 1024

/-- The fixed buffered/staged threshold: 100 MiB. -/
def bufferedThreshold : Nat := 100 * 1024 * 1024

/-- `file.path.replace(/\//g, "_")`: flatten path separators for the
staging file name. -/
def flattenPath (p : String) : String :=
  String.mk (p.data.map (fun c => if c = '/' then '_' else c))

/-- Observable effects of one `backupFile` call, in order. -/
inductive Action where
  | probe (key : String)
  | download (path : String)
  | bufferUpload (key : String)
  | writeTemp (path : String)
  | streamUpload (key : String)
  | rmTemp (path : String)
  deriving DecidableEq

/-- Is the action a read of the source object (`supabase.downloadFile`)? -/
def Action.isSourceRead : Action → Bool
  | .download _ => true
  | _ => false

/-- Is the action a write to the destination bucket (`uploadBuffer` or the
streamed `uploadFile`)? -/
def Action.isDestWrite : Action → Bool
  | .bufferUpload _ => true
  | .streamUpload _ => true
  | _ => false

/-- Result of one `backupFile` call: the thrown-or-returned outcome, which
of the two transfer strategies were entered, and the effect trace. -/
structure TransferResult where
  result : Except String Unit
  triedBuffered : Bool
  triedStaged : Bool
  actions : List Action

/-- Did the call fail (JavaScript `throw` / rejected promise)? -/
def exceptFailed : Except String Unit → Bool
  | .error _ => true
  | .ok _ => false

/-- Method 2 of `backupFile` (the staged strategy): download the object,
persist it under the flattened name inside the staging directory, stream
the staged file to the destination, and remove the staged file on every
exit path (`rm` on success, `rm` inside the `catch` on failure). -/
def backupFileStaged (env : TransferEnv) (cfg : BackupConfig) (file : StorageFile) :
    TransferResult :=
  let key := generateS3Key cfg.prefixS3 file.path
  let tempFilePath := cfg.tempDir ++ "/" ++ flattenPath file.path
  match env.download file.path with
  | .error e =>
    { result := .error e, triedBuffered := false, triedStaged := true
      actions := [.download file.path, .rmTemp tempFilePath] }
  | .ok _ =>
    match env.writeTemp tempFilePath with
    | .error e =>
      { result := .error e, triedBuffered := false, triedStaged := true
        actions := [.download file.path, .writeTemp tempFilePath, .rmTemp tempFilePath] }
    | .ok _ =>
      match env.uploadStream key with
      | .error e =>
        { result := .error e, triedBuffered := false, triedStaged := true
          actions := [.download file.path, .writeTemp tempFilePath,
                      .streamUpload key, .rmTemp tempFilePath] }
      | .ok _ =>
        { result := .ok (), triedBuffered := false, triedStaged := true
          actions := [.download file.path, .writeTemp tempFilePath,
                      .streamUpload key, .rmTemp tempFilePath] }

/-- `backupFile` of `backup.ts`: probe the destination first and throw
`"File already exists"` when the probe finds the key; otherwise attempt
the buffered strategy when `triesBuffered` holds, falling back to the
staged strategy when the buffered attempt throws; a falsy or
at/above-threshold size goes straight to the staged strategy. -/
def backupFile (env : TransferEnv) (cfg : BackupConfig) (file : StorageFile) :
    TransferResult :=
  let key := generateS3Key cfg.prefixS3 file.path
  if fileExists env cfg file.path then
    { result := .error "File already exists", triedBuffered := false, triedStaged := false
      actions := [.probe key] }
  else if triesBuffered file.size then
    match env.download file.path with
    | .ok _ =>
      match env.uploadBuffer key with
      | .ok _ =>
        { result := .ok (), triedBuffered := true, triedStaged := false
          actions := [.probe key, .download file.path, .bufferUpload key] }
      | .error _ =>
        let staged := backupFileStaged env cfg file
        { staged with triedBuffered := true
                      actions := [.probe key, .download file.path, .bufferUpload key]
                                   ++ staged.actions }
    | .error _ =>
      let staged := backupFileStaged env cfg file
      { staged with triedBuffered := true
                    actions := [.probe key, .download file.path] ++ staged.actions }
  else
    let staged := backupFileStaged env cfg file
    { staged with actions := Action.probe key :: staged.actions }

/-! ## Batch orchestrator and run supervisor (`backup.ts`: `backup`) -/

/-- Per-object outcome as classified by the batch loop of `backup`. -/
inductive Outcome where
  | copied
  | skipped
  | failed
  deriving DecidableEq

/-- The catch-classification of the batch loop: a resolved `backupFile`
call counts as a success; a thrown error whose message contains the
substring `"already exists"` counts as a skip; every other error counts as
a failure. -/
def classifyResult : Except String Unit → Outcome
  | .ok _ => .copied
  | .error msg => if jsIncludes msg "already exists" then .skipped else .failed

/-- The outcome the orchestrator records for one file. -/
def outcomeOf (env : TransferEnv) (cfg : BackupConfig) (file : StorageFile) : Outcome :=
  classifyResult (backupFile env cfg file).result

/-- Loop body of the batch partition, with an explicit iteration bound so
the recursion is structural: each round takes `slice(i, min(i + k, n))` —
`take k` of what is left — and advances by `k` — `drop k`. One round
consumes at least one element when `k ≥ 1`, so `xs.length` rounds always
suffice. -/
def chunkListGo (k : Nat) : Nat → List StorageFile → List (List StorageFile)
  | 0, _ => []
  | _ + 1, [] => []
  | fuel + 1, x :: rest => ((x :: rest).take k) :: chunkListGo k fuel ((x :: rest).drop k)

/-- The batch partition of the orchestrator's `for` loop:
`slice(i, min(i + batchSize, length))` for `i = 0, k, 2k, …`. The source
loop does not terminate for `batchSize = 0`; the model returns `[]` there
and every run-level theorem assumes a positive batch size. -/
def chunkList (k : Nat) (xs : List StorageFile) : List (List StorageFile) :=
  if k = 0 then [] else chunkListGo k xs.length xs

/-- One counter increment of the batch loop: a resolved transfer bumps
`successCount`, an "already exists" throw bumps `skipCount`, any other
throw bumps `errorCount` — exactly one component per outcome. -/
def tallyStep (t : Nat × Nat × Nat) (o : Outcome) : Nat × Nat × Nat :=
  match o with
  | .copied => (t.1 + 1, t.2.1, t.2.2)
  | .skipped => (t.1, t.2.1 + 1, t.2.2)
  | .failed => (t.1, t.2.1, t.2.2 + 1)

/-- Counter triple `(successCount, skipCount, errorCount)` accumulated by
the batch loop over all outcomes of the run. -/
def tally (outs : List Outcome) : Nat × Nat × Nat :=
  outs.foldl tallyStep (0, 0, 0)

/-- Aggregate counters of one run (`BackupMetrics` of `slack.ts`, minus
the wall-clock fields). -/
structure RunMetrics where
  totalFiles : Nat
  successCount : Nat
  skipCount : Nat
  errorCount : Nat
  totalSize : Nat
  deriving DecidableEq

/-- Top-level result of one run: the early `"No files found to backup"`
return, or a completed run with its metrics. -/
inductive RunResult where
  | nothingToDo
  | completed (metrics : RunMetrics)
  deriving DecidableEq

/-- Observable side effects of one run: the batches executed, whether the
staging directory removal was reached, the swallowed removal error if any,
and whether the notifier was invoked. -/
structure RunTrace where
  batches : List (List StorageFile)
  cleaned : Bool
  cleanupError : Option String
  notified : Bool
  deriving DecidableEq

/-- Trace of a run that never reached the batch loop. -/
def emptyTrace : RunTrace :=
  { batches := [], cleaned := false, cleanupError := none, notified := false }

/-- `backup` of `backup.ts`. `enumResult` is the outcome of
`supabase.listAllFiles()` (an `error` models the enumeration throwing);
`env.mkdirResult` is the outcome of `ensureTempDir`. An error from either
propagates out of the run (rethrown by the outer `catch`) without reaching
the staging-directory cleanup. Zero enumerated files return early, before
batching, cleanup, metrics and notification. Otherwise each batch's
outcomes are accumulated into the three counters, the staging directory
removal is attempted with any failure swallowed (`cleanupTempDir` catches
and only warns), and the metrics are handed to the notifier. -/
def backup (env : TransferEnv) (cfg : BackupConfig)
    (enumResult : Except String (List StorageFile)) :
    Except String RunResult × RunTrace :=
  match env.mkdirResult with
  | .error e => (.error e, emptyTrace)
  | .ok _ =>
    match enumResult with
    | .error e => (.error e, emptyTrace)
    | .ok allFiles =>
      if allFiles.length = 0 then
        (.ok .nothingToDo, emptyTrace)
      else
        let totalSize := (allFiles.map (fun f => f.size)).sum
        let batches := chunkList cfg.batchSize allFiles
        let outcomes := batches.foldl (fun acc b => acc ++ b.map (outcomeOf env cfg)) []
        let t := tally outcomes
        let metrics : RunMetrics :=
          { totalFiles := allFiles.length
            successCount := t.1
            skipCount := t.2.1
            errorCount := t.2.2
            totalSize := totalSize }
        (.ok (.completed metrics),
         { batches := batches
           cleaned := true
           cleanupError := match env.rmDirResult with | .ok _ => none | .error e => some e
           notified := true })

/-! ## Concrete fixtures used by witnesses and counterexamples -/

/-- Environment in which the destination is empty and every effect
succeeds. -/
def exEnvOk : TransferEnv :=
  { destKeys := []
    download := fun _ => .ok ()
    uploadBuffer := fun _ => .ok ()
    writeTemp := fun _ => .ok ()
    uploadStream := fun _ => .ok ()
    mkdirResult := .ok ()
    rmDirResult := .ok () }

/-- Environment in which the destination already holds `a/b.mp3`. -/
def exEnvHas : TransferEnv :=
  { exEnvOk with destKeys := ["a/b.mp3"] }

/-- Environment in which both destination writes reject with a message
that happens to contain the substring `"already exists"`. -/
def exEnvWriteAE : TransferEnv :=
  { exEnvOk with
      uploadBuffer := fun _ => .error "EntityAlreadyExists: the entity already exists"
      uploadStream := fun _ => .error "EntityAlreadyExists: the entity already exists" }

/-- A concrete configuration (no S3 prefix, batch size 5). -/
def exCfg : BackupConfig :=
  { batchSize := 5
    tempDir := "/tmp/supabase-audio-backups"
    cronSchedule := "0 2 * * *"
    fileExtensions := [".mp3", ".wav"]
    prefixS3 := "" }

/-- A small (100-byte) enumerated file. -/
def exFileSmall : StorageFile :=
  { name := "b.mp3"
    id := "1"
    path := "a/b.mp3"
    isFolder := false
    created_at := ""
    updated_at := ""
    size := 100
    metadata := some [("size", 100)] }

/-- Root listing of the example tree `{a/, a/b.mp3, c.wav}`: the folder
`a` (no metadata) and the file `c.wav`. -/
def exTreeListing (p : String) : Option (List ListedItem) :=
  if p = "" then
    some [{ name := "a", id := "f1", created_at := none, updated_at := none,
            metadata := none },
          { name := "c.wav", id := "f2", created_at := some "2024-01-01T00:00:00Z",
            updated_at := some "2024-01-01T00:00:00Z", metadata := some [("size", 100)] }]
  else if p = "a" then
    some [{ name := "b.mp3", id := "f3", created_at := some "2024-01-02T00:00:00Z",
            updated_at := some "2024-01-02T00:00:00Z", metadata := some [("size", 200)] }]
  else
    some []

/-- An entry whose metadata is present and carries an explicit `size`
property whose value is `0`. -/
def itemSizeZero : ListedItem :=
  { name := "z", id := "f9", created_at := none, updated_at := none,
    metadata := some [("size", 0)] }

/-- A bucket whose root holds only `itemSizeZero`. -/
def exListingZ (p : String) : Option (List ListedItem) :=
  if p = "" then some [itemSizeZero] else some []

/-- The folder classification as the specification's claim words it:
folder iff the metadata is absent or lacks a `size` field. Declared only
to be compared against the source's `isFolderItem`. -/
def folderRuleClaimed (md : Option (List (String × Nat))) : Bool :=
  match md with
  | none => true
  | some kvs => (lookupMeta kvs "size").isNone

/-! ## Helper lemmas -/

/-- Every `StorageFile` record built by the enumerator has
`isFolder = false` and a nonzero `size`. -/
def goodFile (f : StorageFile) : Bool :=
  !f.isFolder && f.size != 0

theorem processItems_good (cur : String) (items : List ListedItem) :
    ((processItems cur items).2).all goodFile = true := by
  induction items with
  | nil => rfl
  | cons item rest ih =>
    by_cases hf : isFolderItem item.metadata = true
    · simpa [processItems, hf] using ih
    · have hsz : ((item.metadata.bind (fun kvs => lookupMeta kvs "size")).getD 0) ≠ 0 := by
        cases hmd : item.metadata with
        | none => rw [hmd] at hf; simp [isFolderItem] at hf
        | some kvs =>
          rw [hmd] at hf
          simp only [isFolderItem, Bool.or_eq_true, beq_iff_eq] at hf
          push_neg at hf
          simpa using hf.2
      simp [processItems, hf, goodFile, hsz, ih]

theorem listAllFilesGo_good (listing : String → Option (List ListedItem)) :
    ∀ (fuel : Nat) (queue processed : List String) (acc : List StorageFile),
      acc.all goodFile = true →
      (listAllFilesGo listing fuel queue processed acc).all goodFile = true := by
  intro fuel
  induction fuel with
  | zero => intro q p acc h; simpa [listAllFilesGo] using h
  | succ n ih =>
    intro q p acc h
    cases q with
    | nil => simpa [listAllFilesGo] using h
    | cons cur rest =>
      by_cases hc : p.contains cur = true
      · rw [listAllFilesGo, if_pos hc]; exact ih _ _ _ h
      · rw [listAllFilesGo, if_neg hc]
        cases hl : listing cur with
        | none => exact ih _ _ _ h
        | some data =>
          apply ih
          simp [List.all_append, h, processItems_good cur data]

theorem listAllFiles_good (listing : String → Option (List ListedItem)) (fuel : Nat) :
    (listAllFiles listing fuel).all goodFile = true :=
  listAllFilesGo_good listing fuel [""] [] [] rfl

/-- The staged method never sets the buffered flag and always sets the
staged flag. -/
theorem backupFileStaged_flags (env : TransferEnv) (cfg : BackupConfig)
    (file : StorageFile) :
    (backupFileStaged env cfg file).triedBuffered = false ∧
    (backupFileStaged env cfg file).triedStaged = true := by
  cases hd : env.download file.path with
  | error e => simp [backupFileStaged, hd]
  | ok u =>
    cases hw : env.writeTemp (cfg.tempDir ++ "/" ++ flattenPath file.path) with
    | error e => simp [backupFileStaged, hd, hw]
    | ok v =>
      cases hs : env.uploadStream (generateS3Key cfg.prefixS3 file.path) with
      | error e => simp [backupFileStaged, hd, hw, hs]
      | ok w => simp [backupFileStaged, hd, hw, hs]

/-- The three counters always sum to the number of outcomes folded over,
whatever the starting triple. -/
theorem tally_foldl_sum (outs : List Outcome) :
    ∀ t : Nat × Nat × Nat,
      (outs.foldl tallyStep t).1 + (outs.foldl tallyStep t).2.1
        + (outs.foldl tallyStep t).2.2 = t.1 + t.2.1 + t.2.2 + outs.length := by
  induction outs with
  | nil => intro t; simp
  | cons o rest ih =>
    intro t
    cases o <;> simp only [List.foldl_cons, tallyStep] <;> rw [ih] <;> dsimp only <;>
      simp only [List.length_cons] <;> omega

theorem tally_sum (outs : List Outcome) :
    (tally outs).1 + (tally outs).2.1 + (tally outs).2.2 = outs.length := by
  simpa using tally_foldl_sum outs (0, 0, 0)

/-- Concatenating the mapped outcomes of every batch, batch by batch, is
the join of the per-batch outcome lists. -/
theorem foldl_append_map (g : StorageFile → Outcome) :
    ∀ (bs : List (List StorageFile)) (acc : List Outcome),
      bs.foldl (fun acc b => acc ++ b.map g) acc = acc ++ (bs.map (fun b => b.map g)).flatten := by
  intro bs
  induction bs with
  | nil => intro acc; simp
  | cons b rest ih =>
    intro acc
    simp only [List.foldl_cons, List.map_cons, List.flatten_cons]
    rw [ih, List.append_assoc]

theorem chunkListGo_flatten (k : Nat) (hk : k ≠ 0) :
    ∀ (fuel : Nat) (xs : List StorageFile), xs.length ≤ fuel →
      (chunkListGo k fuel xs).flatten = xs := by
  intro fuel
  induction fuel with
  | zero =>
    intro xs h
    rw [List.eq_nil_of_length_eq_zero (Nat.le_zero.mp h)]
    rfl
  | succ n ih =>
    intro xs h
    cases xs with
    | nil => rfl
    | cons x rest =>
      rw [chunkListGo, List.flatten_cons, ih _ (by
        simp only [List.length_drop, List.length_cons]
        simp only [List.length_cons] at h
        omega)]
      exact List.take_append_drop k (x :: rest)

/-- `chunkList` splits into contiguous batches: their join is the
original list (positive batch size). -/
theorem chunkList_join (k : Nat) (hk : k ≠ 0) (xs : List StorageFile) :
    (chunkList k xs).flatten = xs := by
  rw [chunkList, if_neg hk]
  exact chunkListGo_flatten k hk xs.length xs (Nat.le_refl _)

/-- Every batch produced by `chunkList` has at most `k` elements. -/
theorem chunkList_mem_length (k : Nat) (xs : List StorageFile) :
    ∀ b ∈ chunkList k xs, b.length ≤ k := by
  rw [chunkList]
  by_cases hk : k = 0
  · rw [if_pos hk]; intro b hb; simp at hb
  · rw [if_neg hk]
    generalize xs.length = fuel
    induction fuel generalizing xs with
    | zero => intro b hb; simp [chunkListGo] at hb
    | succ n ih =>
      intro b hb
      cases xs with
      | nil => simp [chunkListGo] at hb
      | cons x rest =>
        rw [chunkListGo] at hb
        rcases List.mem_cons.mp hb with h | h
        · subst h; simp [List.length_take]
        · exact ih _ b h

theorem chunkListGo_length (k : Nat) (hk : k ≠ 0) :
    ∀ (fuel : Nat) (xs : List StorageFile), xs.length ≤ fuel →
      (chunkListGo k fuel xs).length = (xs.length + k - 1) / k := by
  intro fuel
  induction fuel with
  | zero =>
    intro xs h
    rw [List.eq_nil_of_length_eq_zero (Nat.le_zero.mp h)]
    simp [chunkListGo, Nat.div_eq_of_lt (Nat.sub_lt (Nat.pos_of_ne_zero hk) Nat.one_pos)]
  | succ n ih =>
    intro xs h
    cases xs with
    | nil =>
      simp [chunkListGo, Nat.div_eq_of_lt (Nat.sub_lt (Nat.pos_of_ne_zero hk) Nat.one_pos)]
    | cons x rest =>
      rw [chunkListGo]
      simp only [List.length_cons]
      rw [ih _ (by
        simp only [List.length_drop, List.length_cons]
        simp only [List.length_cons] at h
        omega)]
      simp only [List.length_drop, List.length_cons]
      rcases Nat.lt_or_ge (rest.length + 1) k with hsmall | hbig
      · have h1 : rest.length + 1 - k = 0 := Nat.sub_eq_zero_of_le (Nat.le_of_lt hsmall)
        have h3 : (rest.length + 1 + k - 1) / k = 1 := by
          have heq : rest.length + 1 + k - 1 = rest.length + k := by omega
          rw [heq, Nat.add_div_right _ (Nat.pos_of_ne_zero hk),
              Nat.div_eq_of_lt (by omega)]
        rw [h1, h3, Nat.div_eq_of_lt (by omega)]
      · have heq1 : rest.length + 1 - k + k - 1 = rest.length := by omega
        have heq2 : rest.length + 1 + k - 1 = rest.length + k := by omega
        rw [heq1, heq2, Nat.add_div_right _ (Nat.pos_of_ne_zero hk)]

/-- `chunkList` produces exactly `⌈n / k⌉` batches (positive batch
size). -/
theorem chunkList_length (k : Nat) (hk : k ≠ 0) (xs : List StorageFile) :
    (chunkList k xs).length = (xs.length + k - 1) / k := by
  rw [chunkList, if_neg hk]
  exact chunkListGo_length k hk xs.length xs (Nat.le_refl _)

/-- Batch-by-batch accumulation visits every object exactly once. -/
theorem outcomes_length (g : StorageFile → Outcome) (k : Nat) (hk : k ≠ 0)
    (xs : List StorageFile) :
    ((chunkList k xs).foldl (fun acc b => acc ++ b.map g) []).length = xs.length := by
  rw [foldl_append_map]
  simp only [List.nil_append, List.length_flatten, List.map_map]
  have hcomp : (List.length ∘ fun b : List StorageFile => b.map g) = List.length := by
    funext b; simp
  rw [hcomp, ← List.length_flatten, chunkList_join k hk]

/-- A list is a `isPrefixOf` itself. -/
theorem isPrefixOf_self (l : List Char) : l.isPrefixOf l = true := by
  induction l with
  | nil => rfl
  | cons c cs ih => simp [List.isPrefixOf, ih]

/-- The metrics record a completed run hands to the notifier satisfies
`total = copied + skipped + failed`. -/
theorem backup_metrics_sum (env : TransferEnv) (cfg : BackupConfig)
    (files : List StorageFile) (hk : cfg.batchSize ≠ 0) (m : RunMetrics)
    (hm : (backup env cfg (Except.ok files)).1 = Except.ok (RunResult.completed m)) :
    m.totalFiles = m.successCount + m.skipCount + m.errorCount := by
  cases hmk : env.mkdirResult with
  | error e =>
    unfold backup at hm
    rw [hmk] at hm
    simp at hm
  | ok u =>
    unfold backup at hm
    rw [hmk] at hm
    dsimp only at hm
    by_cases h0 : files.length = 0
    · rw [if_pos h0] at hm
      simp at hm
    · rw [if_neg h0] at hm
      dsimp only at hm
      simp only [Except.ok.injEq, RunResult.completed.injEq] at hm
      subst hm
      dsimp only
      rw [tally_sum]
      exact (outcomes_length (outcomeOf env cfg) cfg.batchSize hk files).symm

/-! ## Claim theorems -/

/-- C6: `shouldRunBackup(expression, now)` is true iff the expression
splits (on the space character, as the source's `split(" ")` does) into
exactly 5 fields and each of the five fields independently matches the
corresponding calendar component of `now` — the logical AND of the five
field matches; any other field count yields `false` (a total function:
the run is skipped, never a crash). -/
theorem shouldRunBackup_iff_five_matches (s : String) (now : DateTime) :
    shouldRunBackup s now = true ↔
      ((jsSplit s ' ').length = 5 ∧
       matchCronField ((jsSplit s ' ').getD 0 "") now.minute 0 59 = true ∧
       matchCronField ((jsSplit s ' ').getD 1 "") now.hour 0 23 = true ∧
       matchCronField ((jsSplit s ' ').getD 2 "") now.day 1 31 = true ∧
       matchCronField ((jsSplit s ' ').getD 3 "") now.month 1 12 = true ∧
       matchCronField ((jsSplit s ' ').getD 4 "") now.dayOfWeek 0 6 = true) := by
  unfold shouldRunBackup
  by_cases h5 : (jsSplit s ' ').length = 5
  · simp [h5, Bool.and_eq_true, and_assoc]
  · simp [h5]

/-- C7: for every schedule field of the form `a/b`, the step divisibility
test applies only when `a` is the wildcard `*`; a field `a/b` whose `a` is
not `*` is accepted (no crash) but gets no step behaviour — its match is
decided by the later field rules (`matchCronFieldTail`: range, list,
single value). -/
theorem step_only_for_wildcard (f : String) (v lo hi : Int)
    (h : jsHasChar f '/' = true) :
    (((jsSplit f '/').getD 0 "" = "*") →
        matchCronField f v lo hi = stepCheck f v) ∧
    (((jsSplit f '/').getD 0 "" ≠ "*") →
        matchCronField f v lo hi = matchCronFieldTail f v) := by
  have hne : f ≠ "*" := by
    intro hf
    rw [hf] at h
    exact absurd h (by decide)
  constructor
  · intro hw
    rw [matchCronField, if_neg hne,
        if_pos (show (jsHasChar f '/' && ((jsSplit f '/').getD 0 "" == "*")) = true by
          rw [h, Bool.true_and, hw, beq_self_eq_true])]
  · intro hw
    rw [matchCronField, if_neg hne, if_neg]
    rw [h, Bool.true_and]
    intro hc
    exact hw (beq_iff_eq.mp hc)

/-- Witness for C7 at the concrete field `5/2`: the numerator is not `*`,
so the field is decided by the tail rules — here single-value equality,
which matches the calendar value 5. -/
theorem step_only_for_wildcard_witness :
    jsHasChar "5/2" '/' = true ∧
    matchCronField "5/2" 5 0 59 = matchCronFieldTail "5/2" 5 ∧
    matchCronField "5/2" 5 0 59 = true :=
  ⟨by decide, (step_only_for_wildcard "5/2" 5 0 59 (by decide)).2 (by decide), by decide⟩

/-- C5 counterexample: an entry whose metadata is present and has a `size`
field with value `0` refutes the claimed classification rule. The claim
("folder iff metadata absent or lacking a size field") calls it a file,
but the source's falsy-size test classifies it as a folder, so a bucket
whose root holds only this entry enumerates to no objects at all. -/
theorem folder_rule_counterexample :
    folderRuleClaimed itemSizeZero.metadata = false ∧
    isFolderItem itemSizeZero.metadata = true ∧
    listAllFiles exListingZ 10 = [] := by decide

/-- C5 (amended): the enumerator classifies an entry as a folder iff its
metadata is absent, empty, or its `size` field is absent **or zero**
(JavaScript falsiness); folders are queued under their full joined path
(`parent/name`, bare `name` at root) and never appear in the returned
object list, files appear with their full joined path; the example tree
`{a/, a/b.mp3, c.wav}` enumerates to exactly the objects `c.wav` and
`a/b.mp3`. -/
theorem folder_classification_amended :
    (∀ md : Option (List (String × Nat)),
       isFolderItem md = true ↔
         (md = none ∨ ∃ kvs, md = some kvs ∧
           (kvs = [] ∨ lookupMeta kvs "size" = none ∨ lookupMeta kvs "size" = some 0))) ∧
    (∀ (cur : String) (items : List ListedItem),
       (processItems cur items).1 =
         (items.filter (fun it => isFolderItem it.metadata)).map
           (fun it => joinPath cur it.name) ∧
       (processItems cur items).2.map (fun f => f.path) =
         (items.filter (fun it => !isFolderItem it.metadata)).map
           (fun it => joinPath cur it.name)) ∧
    (∀ (listing : String → Option (List ListedItem)) (fuel : Nat),
       (listAllFiles listing fuel).all (fun f => !f.isFolder) = true) ∧
    (listAllFiles exTreeListing 10).map (fun f => f.path) = ["c.wav", "a/b.mp3"] := by
  refine ⟨?_, ?_, ?_, by decide⟩
  · intro md
    cases md with
    | none => simp [isFolderItem]
    | some kvs =>
      constructor
      · intro hiff
        refine Or.inr ⟨kvs, rfl, ?_⟩
        simp only [isFolderItem, Bool.or_eq_true, List.isEmpty_iff, beq_iff_eq] at hiff
        rcases hiff with h | h
        · exact Or.inl h
        · cases hl : lookupMeta kvs "size" with
          | none => exact Or.inr (Or.inl rfl)
          | some n =>
            rw [hl] at h
            simp only [Option.getD_some] at h
            exact Or.inr (Or.inr (by rw [h]))
      · rintro (hmd | ⟨kvs2, hk2, hcase⟩)
        · exact absurd hmd (by simp)
        · injection hk2 with hk2
          subst hk2
          simp only [isFolderItem, Bool.or_eq_true, List.isEmpty_iff, beq_iff_eq]
          rcases hcase with h | h | h
          · exact Or.inl h
          · exact Or.inr (by rw [h]; rfl)
          · exact Or.inr (by rw [h]; rfl)
  · intro cur items
    induction items with
    | nil => exact ⟨rfl, rfl⟩
    | cons item rest ih =>
      by_cases hf : isFolderItem item.metadata = true
      · simp [processItems, List.filter_cons, hf, ih.1, ih.2]
      · simp only [Bool.not_eq_true] at hf
        simp [processItems, List.filter_cons, hf, ih.1, ih.2]
  · intro listing fuel
    have h := listAllFiles_good listing fuel
    rw [List.all_eq_true] at h ⊢
    intro f hf
    have := h f hf
    unfold goodFile at this
    exact Bool.and_eq_true_iff.mp this |>.1

/-- C4: when the destination already holds the object's key, the transfer
throws `"File already exists"` — classified as the skipped outcome by the
orchestrator — after the probe alone: the effect trace is exactly the
probe, with no source read and no destination write. -/
theorem exists_probe_skips_without_transfer (env : TransferEnv) (cfg : BackupConfig)
    (file : StorageFile)
    (h : generateS3Key cfg.prefixS3 file.path ∈ env.destKeys) :
    outcomeOf env cfg file = Outcome.skipped ∧
    (backupFile env cfg file).actions = [Action.probe (generateS3Key cfg.prefixS3 file.path)] ∧
    ((backupFile env cfg file).actions.any Action.isSourceRead) = false ∧
    ((backupFile env cfg file).actions.any Action.isDestWrite) = false := by
  have hex : fileExists env cfg file.path = true := by
    unfold fileExists
    rw [List.any_eq_true]
    exact ⟨generateS3Key cfg.prefixS3 file.path, h, isPrefixOf_self _⟩
  refine ⟨?_, ?_, ?_, ?_⟩ <;>
    simp [outcomeOf, backupFile, hex, classifyResult, jsIncludes, Action.isSourceRead,
      Action.isDestWrite, List.any_cons, List.any_nil]
  decide

/-- Witness for C4: a destination that already holds `a/b.mp3` makes the
transfer of that object a pure probe-and-skip. -/
theorem exists_probe_skips_without_transfer_witness :
    generateS3Key exCfg.prefixS3 exFileSmall.path ∈ exEnvHas.destKeys ∧
    (outcomeOf exEnvHas exCfg exFileSmall = Outcome.skipped ∧
     (backupFile exEnvHas exCfg exFileSmall).actions
       = [Action.probe (generateS3Key exCfg.prefixS3 exFileSmall.path)] ∧
     ((backupFile exEnvHas exCfg exFileSmall).actions.any Action.isSourceRead) = false ∧
     ((backupFile exEnvHas exCfg exFileSmall).actions.any Action.isDestWrite) = false) :=
  ⟨by decide, exists_probe_skips_without_transfer exEnvHas exCfg exFileSmall (by decide)⟩

/-- C1: every object the enumerator can produce has a nonzero recorded
size (a size-less entry is classified a folder and never enumerated), so
the "size unknown" case of the claim is vacuous at the transfer; for every
such object that does not already exist at the destination, the buffered
strategy is attempted exactly when the size is below the fixed 100 MiB
threshold, and the staged strategy runs exactly when the size is at/above
the threshold or the buffered attempt failed (its source read or its
single-call destination write threw). -/
theorem buffered_below_threshold_staged_otherwise :
    (∀ (listing : String → Option (List ListedItem)) (fuel : Nat),
       (listAllFiles listing fuel).all (fun f => f.size != 0) = true) ∧
    (∀ (env : TransferEnv) (cfg : BackupConfig) (file : StorageFile),
       fileExists env cfg file.path = false → file.size ≠ 0 →
         (backupFile env cfg file).triedBuffered = decide (file.size < bufferedThreshold) ∧
         (backupFile env cfg file).triedStaged =
           (decide (bufferedThreshold ≤ file.size)
             || exceptFailed (env.download file.path)
             || exceptFailed (env.uploadBuffer (generateS3Key cfg.prefixS3 file.path)))) := by
  constructor
  · intro listing fuel
    have h := listAllFiles_good listing fuel
    rw [List.all_eq_true] at h ⊢
    intro f hf
    have := h f hf
    unfold goodFile at this
    exact Bool.and_eq_true_iff.mp this |>.2
  · intro env cfg file hex hsz
    have hstaged := backupFileStaged_flags env cfg file
    by_cases hlt : file.size < bufferedThreshold
    · have ht : triesBuffered file.size = true := by
        unfold triesBuffered
        rw [Bool.and_eq_true]
        refine ⟨by simpa using hsz, ?_⟩
        simp only [bufferedThreshold] at hlt
        simpa using hlt
      cases hd : env.download file.path with
      | ok u =>
        cases hu : env.uploadBuffer (generateS3Key cfg.prefixS3 file.path) with
        | ok w =>
          simp [backupFile, hex, ht, hd, hu, exceptFailed, hlt, Nat.not_le.mpr hlt]
        | error e =>
          simp [backupFile, hex, ht, hd, hu, exceptFailed, hlt, hstaged.2]
      | error e =>
        simp [backupFile, hex, ht, hd, exceptFailed, hlt, hstaged.2]
    · have hge : bufferedThreshold ≤ file.size := Nat.le_of_not_lt hlt
      have ht : triesBuffered file.size = false := by
        unfold triesBuffered
        simp only [bufferedThreshold] at hlt
        simp [hlt]
      simp [backupFile, hex, ht, hlt, hge, hstaged.1, hstaged.2]

/-- Witness for C1 at a 100-byte object against an empty destination with
all effects succeeding: the buffered strategy is used and the staged one
is not. -/
theorem buffered_below_threshold_staged_otherwise_witness :
    fileExists exEnvOk exCfg exFileSmall.path = false ∧ exFileSmall.size ≠ 0 ∧
    (backupFile exEnvOk exCfg exFileSmall).triedBuffered = true ∧
    (backupFile exEnvOk exCfg exFileSmall).triedStaged = false := by
  have h := buffered_below_threshold_staged_otherwise.2 exEnvOk exCfg exFileSmall
    (by decide) (by decide)
  exact ⟨by decide, by decide, by simpa using h.1, by simpa using h.2⟩

/-- C2 counterexample: a run whose enumeration returns zero objects does
not produce any `RunMetrics` at all — the source returns from the
`allFiles.length === 0` branch before the counters, the metrics object and
the notification are ever built, so no zero-count metrics record results. -/
theorem empty_enumeration_no_metrics_counterexample :
    ¬ ∃ m : RunMetrics,
        (backup exEnvOk exCfg (Except.ok ([] : List StorageFile))).1
          = Except.ok (RunResult.completed m) := by
  rintro ⟨m, hm⟩
  have h0 : (backup exEnvOk exCfg (Except.ok ([] : List StorageFile))).1
      = Except.ok RunResult.nothingToDo := rfl
  rw [h0] at hm
  simp at hm

/-- C2 (amended): a run whose enumeration returns zero objects ends
immediately with the "nothing to do" result: no batches are executed, the
staging-directory cleanup is never reached, and no metrics or notification
are produced (in particular, no `RunMetrics` — zero-count or otherwise —
is constructed). -/
theorem empty_enumeration_nothing_to_do (env : TransferEnv) (cfg : BackupConfig)
    (h : env.mkdirResult = Except.ok ()) :
    backup env cfg (Except.ok ([] : List StorageFile))
      = (Except.ok RunResult.nothingToDo, emptyTrace) := by
  unfold backup
  rw [h]
  rfl

/-- Witness for C2 (amended) on the concrete all-succeeding environment. -/
theorem empty_enumeration_nothing_to_do_witness :
    exEnvOk.mkdirResult = Except.ok () ∧
    backup exEnvOk exCfg (Except.ok ([] : List StorageFile))
      = (Except.ok RunResult.nothingToDo, emptyTrace) :=
  ⟨rfl, empty_enumeration_nothing_to_do exEnvOk exCfg rfl⟩

/-- C3 counterexample: a run that fails (here: enumeration throwing) never
reaches the staging-directory removal — `cleanupTempDir` is called inside
the `try` block after the batch loop, not in a `finally` — refuting
"on every completion, successful or not, the staging directory is
removed". -/
theorem cleanup_not_on_failure_counterexample :
    (backup exEnvOk exCfg (Except.error "Supabase scan failed")).1
      = Except.error "Supabase scan failed" ∧
    (backup exEnvOk exCfg (Except.error "Supabase scan failed")).2.cleaned = false :=
  ⟨rfl, rfl⟩

/-- C3 (amended): the staging directory removal is reached exactly when
the staging directory was created, enumeration succeeded with at least one
object and the batch loop completed; on a failed run (or an empty
enumeration) it is skipped. When the removal is attempted, its failure is
caught and only warned about: the run's outcome is unchanged whatever the
removal returns. -/
theorem cleanup_on_success_only (env : TransferEnv) (cfg : BackupConfig)
    (enumResult : Except String (List StorageFile)) (hk : 0 < cfg.batchSize) :
    ((backup env cfg enumResult).2.cleaned = true ↔
      (env.mkdirResult = Except.ok () ∧
       ∃ files, enumResult = Except.ok files ∧ files ≠ [])) ∧
    (∀ e, (backup { env with rmDirResult := Except.error e } cfg enumResult).1
            = (backup env cfg enumResult).1) := by
  constructor
  · cases hmk : env.mkdirResult with
    | error e =>
      simp [backup, hmk, emptyTrace]
    | ok u =>
      cases enumResult with
      | error e => simp [backup, hmk, emptyTrace]
      | ok files =>
        by_cases h0 : files.length = 0
        · rw [List.length_eq_zero] at h0
          subst h0
          simp [backup, hmk, emptyTrace]
        · have hne : files ≠ [] := by
            intro hnil; subst hnil; exact h0 rfl
          simp [backup, hmk, h0, hne]
  · intro e
    cases hmk : env.mkdirResult with
    | error e2 => simp [backup, hmk]
    | ok u =>
      cases enumResult with
      | error e2 => simp [backup, hmk]
      | ok files =>
        by_cases h0 : files.length = 0
        · simp [backup, hmk, h0]
        · simp [backup, hmk, h0]
          exact ⟨rfl, rfl, rfl⟩

/-- Witness for C3 (amended): with one object and a staging-directory
removal that fails with "disk full", the run still completes with the same
outcome as when removal succeeds. -/
theorem cleanup_on_success_only_witness :
    0 < exCfg.batchSize ∧
    (backup { exEnvOk with rmDirResult := Except.error "disk full" } exCfg
        (Except.ok [exFileSmall])).1
      = (backup exEnvOk exCfg (Except.ok [exFileSmall])).1 :=
  ⟨by decide,
   (cleanup_on_success_only exEnvOk exCfg (Except.ok [exFileSmall]) (by decide)).2 "disk full"⟩

/-- C8: for every input list of `N` objects and positive batch size `k`,
the orchestrator partitions the input into exactly `⌈N / k⌉` contiguous
batches in order, each of width at most `k` (joining them restores the
input); and every outcome increments exactly one counter, so any metrics
a run completes with satisfy `total = copied + skipped + failed`. -/
theorem batches_partition_and_counters_sum (files : List StorageFile) (k : Nat)
    (env : TransferEnv) (cfg : BackupConfig) (hk : 0 < k) (hcfg : cfg.batchSize = k) :
    (chunkList k files).length = (files.length + k - 1) / k ∧
    (∀ b ∈ chunkList k files, b.length ≤ k) ∧
    (chunkList k files).flatten = files ∧
    (∀ m : RunMetrics,
       (backup env cfg (Except.ok files)).1 = Except.ok (RunResult.completed m) →
         m.totalFiles = m.successCount + m.skipCount + m.errorCount) := by
  have hk0 : k ≠ 0 := Nat.pos_iff_ne_zero.mp hk
  refine ⟨chunkList_length k hk0 files, chunkList_mem_length k files,
          chunkList_join k hk0 files, ?_⟩
  intro m hm
  exact backup_metrics_sum env cfg files (by rw [hcfg]; exact hk0) m hm

/-- Witness for C8: one 100-byte object with batch size 5 against the
all-succeeding environment completes with metrics `1 = 1 + 0 + 0`. -/
theorem batches_partition_and_counters_sum_witness :
    0 < 5 ∧ exCfg.batchSize = 5 ∧
    ({ totalFiles := 1, successCount := 1, skipCount := 0, errorCount := 0,
       totalSize := 100 } : RunMetrics).totalFiles
      = ({ totalFiles := 1, successCount := 1, skipCount := 0, errorCount := 0,
           totalSize := 100 } : RunMetrics).successCount
        + ({ totalFiles := 1, successCount := 1, skipCount := 0, errorCount := 0,
             totalSize := 100 } : RunMetrics).skipCount
        + ({ totalFiles := 1, successCount := 1, skipCount := 0, errorCount := 0,
             totalSize := 100 } : RunMetrics).errorCount :=
  ⟨by decide, rfl,
   (batches_partition_and_counters_sum [exFileSmall] 5 exEnvOk exCfg (by decide) rfl).2.2.2
     { totalFiles := 1, successCount := 1, skipCount := 0, errorCount := 0, totalSize := 100 }
     rfl⟩

/-- C9: the orchestrator's catch block distinguishes a skip from a failure
solely by whether the thrown error's message contains the substring
`"already exists"`; consequently a destination-write failure whose message
happens to contain that substring is counted as skipped, not failed — the
concrete conjunct runs one small object against a destination whose writes
reject with such a message and the run's metrics count one skip and zero
errors. -/
theorem skip_classified_by_message_substring :
    (∀ msg : String,
       classifyResult (Except.error msg) = Outcome.skipped ↔
         jsIncludes msg "already exists" = true) ∧
    (backup exEnvWriteAE exCfg (Except.ok [exFileSmall])).1
      = Except.ok (RunResult.completed
          { totalFiles := 1, successCount := 0, skipCount := 1, errorCount := 0,
            totalSize := 100 }) := by
  constructor
  · intro msg
    unfold classifyResult
    by_cases h : jsIncludes msg "already exists" = true
    · simp [h]
    · simp [h]
  · rfl

/-- C10: the configured file-extension allow-list has no effect on a run:
two configurations differing only in `fileExtensions` produce identical
run results and traces on every environment and every enumeration
(the enumerator reads no configuration at all, and neither `backup` nor
`backupFile` ever consults `fileExtensions`). -/
theorem file_extensions_have_no_effect (env : TransferEnv) (cfg : BackupConfig)
    (exts : List String) (enumResult : Except String (List StorageFile)) :
    backup env { cfg with fileExtensions := exts } enumResult
      = backup env cfg enumResult := rfl

end AudioBackup
